import Mathlib

/-!
Shallow embedding of the ai-video-editor-client front-end state logic
(`src/app/page.tsx` and `src/app/api/upload/route.ts`).

Times and durations are modelled as rationals; JavaScript arrays as
`List`; React state updates (`setAudioFiles` with functional updaters)
as explicit state-passing over `List AudioFile`.
-/

namespace VideoEditor

/-- One derived audio chunk (`type AudioChunk` in `page.tsx`). -/
structure AudioChunk where
  id : String
  startTime : ℚ
  endTime : ℚ
  duration : ℚ
deriving Repr, DecidableEq

/-- One track record (`type AudioFile` in `page.tsx`).  The browser `File`
object and the local object URL carry no logic and are left out; all
fields that the state transitions read or write are kept. -/
structure AudioFile where
  id : String
  fileName : String
  storageKey : String
  storageUrl : String
  duration : ℚ
  breakpoints : List ℚ
  uploading : Bool
  uploaded : Bool
  chunks : List AudioChunk
  currentTime : Option ℚ := none
deriving Repr, DecidableEq

/-- The chunk-building loop of `saveAudioFile` (`page.tsx` lines 169-179):
for each consecutive pair of boundary values emit
`{id: "chunk-<fileId>-<i>", startTime, endTime, duration: end - start}`. -/
def chunksFrom (fileId : String) : Nat → List ℚ → List AudioChunk
  | _, [] => []
  | _, [_] => []
  | i, s :: e :: rest =>
    { id := "chunk-" ++ fileId ++ "-" ++ toString i,
      startTime := s, endTime := e, duration := e - s } ::
      chunksFrom fileId (i + 1) (e :: rest)

/-- The boundary array of `saveAudioFile` (`page.tsx` line 165):
`const breakpoints = [0, ...audioFile.breakpoints, audioFile.duration]`.
No sorting or deduplication is performed. -/
def saveBoundaries (f : AudioFile) : List ℚ :=
  0 :: f.breakpoints ++ [f.duration]

/-- The chunk list computed at save time for a track. -/
def saveChunks (f : AudioFile) : List AudioChunk :=
  chunksFrom f.id 0 (saveBoundaries f)

/-- Modelled from the spec (§4.1): the boundary sequence the spec claims,
`sort(unique({0} ∪ breakpoints ∪ {duration}))` — ordered and
deduplicated.  Used only to compare against `saveBoundaries`. -/
def specBoundaries (breakpoints : List ℚ) (duration : ℚ) : List ℚ :=
  List.insertionSort (· ≤ ·) ((0 :: breakpoints ++ [duration]).dedup)

/-- `addBreakpoint` (`page.tsx` lines 125-138): on the track with the given
id, append the time and re-sort unless it is already present
(`file.breakpoints.includes(time)`); JavaScript `Array.sort` is stable,
modelled by the stable `insertionSort`. -/
def addBreakpoint (files : List AudioFile) (fileId : String) (time : ℚ) :
    List AudioFile :=
  files.map (fun file =>
    if file.id = fileId then
      if time ∈ file.breakpoints then file
      else { file with
             breakpoints := List.insertionSort (· ≤ ·) (file.breakpoints ++ [time]) }
    else file)

/-- `removeBreakpoint` (`page.tsx` lines 140-152): exact-value filter
`file.breakpoints.filter((bp) => bp !== time)` on the matching track. -/
def removeBreakpoint (files : List AudioFile) (fileId : String) (time : ℚ) :
    List AudioFile :=
  files.map (fun file =>
    if file.id = fileId then
      { file with breakpoints := file.breakpoints.filter (fun bp => bp ≠ time) }
    else file)

/-- `addEvenBreakpoints` (`page.tsx` lines 329-358): returns immediately when
`count <= 0` or the id is unknown; otherwise clears the matching track's
breakpoints and then sets them to `interval * i` for `i = 1..count`, with
`interval = duration / (count + 1)`.  The two successive `setAudioFiles`
calls are composed into their net effect on the state. -/
def addEvenBreakpoints (files : List AudioFile) (fileId : String)
    (count : Int) : List AudioFile :=
  if count ≤ 0 then files
  else
    match files.find? (fun file => file.id == fileId) with
    | none => files
    | some audioFile =>
      let duration := audioFile.duration
      let interval := duration / ((count : ℚ) + 1)
      let cleared := files.map (fun file =>
        if file.id = fileId then { file with breakpoints := [] } else file)
      let newBreakpoints : List ℚ :=
        (List.range count.toNat).map (fun i : Nat => interval * ((i : ℚ) + 1))
      cleared.map (fun file =>
        if file.id = fileId then { file with breakpoints := newBreakpoints }
        else file)

/-- `handleDragOver` (`page.tsx` lines 95-112), for a non-null dragged index:
no-op when dragging over itself, otherwise `splice` the dragged element out
and `splice` it back in at the target index.  Modelled for in-range indices
(the component only ever passes indices of rendered list items); an
out-of-range dragged index leaves the list unchanged. -/
def handleDragOver (files : List AudioFile) (draggedItem idx : Nat) :
    List AudioFile :=
  if draggedItem = idx then files
  else
    match files[draggedItem]? with
    | none => files
    | some draggedItemContent =>
      (files.eraseIdx draggedItem).insertIdx idx draggedItemContent

/-- The JSON body returned by `POST /api/upload` as `saveAudioFile` sees it. -/
structure UploadResult where
  success : Bool
  key : String
  url : String
deriving Repr, DecidableEq

/-- The state update performed by `saveAudioFile` (`page.tsx` lines 155-248).
`captured` is the `audioFiles` array captured by the closure at render time
(used by the `find` on line 157 and the chunk computation); `state` is the
React state the functional `setAudioFiles` updaters run against; `result` is
the parsed response of the `/api/upload` request (`success = false` also
standing for a network error, which lands in the same `catch` block).  On
success the track gets `uploaded := true` with the returned key/url and the
computed chunks; on failure only `uploading := false` is set. -/
def saveAudioFileUpdate (captured : List AudioFile) (fileId : String)
    (result : UploadResult) (state : List AudioFile) : List AudioFile :=
  match captured.find? (fun file => file.id == fileId) with
  | none => state
  | some audioFile =>
    let chunks := saveChunks audioFile
    let marked := state.map (fun file =>
      if file.id = fileId then { file with uploading := true } else file)
    if result.success then
      marked.map (fun file =>
        if file.id = fileId then
          { file with
            uploading := false
            uploaded := true
            storageKey := result.key
            storageUrl := result.url
            chunks := chunks }
        else file)
    else
      marked.map (fun file =>
        if file.id = fileId then { file with uploading := false } else file)

/-- Whether `saveAudioFile` surfaces a destructive "Upload failed" toast:
exactly when the track exists and the upload did not succeed. -/
def saveErrorToast (captured : List AudioFile) (fileId : String)
    (result : UploadResult) : Bool :=
  match captured.find? (fun file => file.id == fileId) with
  | none => false
  | some _ => !result.success

/-- `saveAudioFile` invoked on the current state (captured = state). -/
def saveAudioFile (files : List AudioFile) (fileId : String)
    (result : UploadResult) : List AudioFile :=
  saveAudioFileUpdate files fileId result files

/-- One `{supabase_url, breakpoints}` entry of the submit payload. -/
structure ProcessEntry where
  supabase_url : String
  breakpoints : List ℚ
deriving Repr, DecidableEq

/-- The `POST /video/process-and-store` request body (`page.tsx` 274-278). -/
structure ProcessPayload where
  data : List ProcessEntry
  combine_videos : Bool
  output_dir : String
deriving Repr, DecidableEq

/-- Observable outcome of one `handleSubmit` run. -/
structure SubmitOutcome where
  /-- React state after the run (all functional updates applied). -/
  newFiles : List AudioFile
  /-- The body sent to `/video/process-and-store`, when that fetch is reached. -/
  processRequest : Option ProcessPayload
  /-- Ids of tracks for which a forced `saveAudioFile` upload request was issued. -/
  uploadRequestIds : List String
  /-- The message of the error thrown before reaching the external API, if any. -/
  error : Option String
deriving Repr, DecidableEq

/-- `handleSubmit` (`page.tsx` lines 250-316).  `audioFiles` is the render
closure's captured state.  If a track is mid-upload the function throws
before any network call.  Otherwise every not-yet-uploaded track is
force-uploaded via `saveAudioFile` (`uploads` gives each request's result;
the concurrent `Promise.all` of functional state updates on distinct ids is
modelled by folding the updates), and then the payload is built from the
**captured** `audioFiles` binding — not from the updated React state. -/
def handleSubmit (audioFiles : List AudioFile)
    (uploads : String → UploadResult) : SubmitOutcome :=
  if audioFiles.any (fun file => file.uploading) then
    { newFiles := audioFiles
      processRequest := none
      uploadRequestIds := []
      error := some "Please wait for all files to finish uploading" }
  else
    let unprocessedFiles := audioFiles.filter (fun file => !file.uploaded)
    let newFiles := unprocessedFiles.foldl
      (fun st file => saveAudioFileUpdate audioFiles file.id (uploads file.id) st)
      audioFiles
    let audioBreakpoints := audioFiles.map (fun file =>
      { supabase_url := file.storageUrl
        breakpoints := file.breakpoints : ProcessEntry })
    { newFiles := newFiles
      processRequest := some
        { data := audioBreakpoints
          combine_videos := false
          output_dir := "output_videos" }
      uploadRequestIds := unprocessedFiles.map (fun file => file.id)
      error := none }

/-! ### `POST /api/upload` (`src/app/api/upload/route.ts`) -/

/-- The `file` form field, as far as the route reads it. -/
structure FormFile where
  name : String
deriving Repr, DecidableEq

/-- Environment of one `POST /api/upload` request: configuration, form
fields, and the outcomes of each storage call the route makes. -/
structure UploadEnv where
  hasSupabaseUrl : Bool
  hasSupabaseAnonKey : Bool
  file : Option FormFile
  breakpointsJson : Option String
  listBucketsOk : Bool
  bucketExists : Bool
  createBucketOk : Bool
  /-- `error` of the main `storage.upload` call, when it fails. -/
  fileUploadError : Option String
  /-- `publicUrl` returned by `getPublicUrl`, when present and non-empty. -/
  publicUrl : Option String
  /-- Whether `JSON.parse(breakpointsJson)` succeeds. -/
  metadataJsonValid : Bool
  /-- Whether the metadata `storage.upload` call succeeds. -/
  metadataUploadOk : Bool
deriving Repr, DecidableEq

/-- A `NextResponse.json` value produced by the route. -/
structure ApiResponse where
  status : Nat
  success : Bool
  error : Option String
  key : Option String
  url : Option String
deriving Repr, DecidableEq

/-- What happened to the breakpoints-metadata side upload (route.ts lines
121-144): parse failures are caught and logged, storage errors are logged
with `console.warn` — both swallowed. -/
inductive MetadataOutcome where
  | notAttempted
  | uploaded
  | uploadFailedLogged
  | parseFailedLogged
deriving Repr, DecidableEq

/-- The storage key for the main file (route.ts lines 53-55):
`audio/original-<hash>.<extension>`, extension = `name.split(".").pop()`. -/
def uploadKey (randomHash name : String) : String :=
  "audio/original-" ++ randomHash ++ "." ++ (name.splitOn ".").getLastD ""

/-- The `POST` handler of `route.ts`, as a function of its environment and
the generated random hash; returns the JSON response together with the
metadata side-upload outcome (which the response never depends on). -/
def uploadPOST (env : UploadEnv) (randomHash : String) :
    ApiResponse × MetadataOutcome :=
  if !env.hasSupabaseUrl || !env.hasSupabaseAnonKey then
    ({ status := 500, success := false,
       error := some "Supabase credentials not configured",
       key := none, url := none }, .notAttempted)
  else
    match env.file with
    | none =>
      ({ status := 400, success := false, error := some "No file provided",
         key := none, url := none }, .notAttempted)
    | some audioFile =>
      let key := uploadKey randomHash audioFile.name
      if !env.listBucketsOk then
        ({ status := 500, success := false,
           error := some "Failed to check storage buckets",
           key := none, url := none }, .notAttempted)
      else if !env.bucketExists && !env.createBucketOk then
        ({ status := 500, success := false,
           error := some "Failed to create storage bucket",
           key := none, url := none }, .notAttempted)
      else
        match env.fileUploadError with
        | some msg =>
          ({ status := 500, success := false,
             error := some ("Failed to upload audio file: " ++ msg),
             key := none, url := none }, .notAttempted)
        | none =>
          match env.publicUrl with
          | none =>
            ({ status := 500, success := false,
               error := some "Failed to get public URL",
               key := none, url := none }, .notAttempted)
          | some url =>
            let metadata : MetadataOutcome :=
              match env.breakpointsJson with
              | none => .notAttempted
              | some _ =>
                if !env.metadataJsonValid then .parseFailedLogged
                else if !env.metadataUploadOk then .uploadFailedLogged
                else .uploaded
            ({ status := 200, success := true, error := none,
               key := some key, url := some url }, metadata)

/-! ### Structural lemmas about the chunk-building loop -/

theorem chunksFrom_map_startTime (fileId : String) :
    ∀ (bps : List ℚ) (j : Nat),
      (chunksFrom fileId j bps).map (fun c => c.startTime) = bps.dropLast := by
  intro bps
  induction bps with
  | nil => intro j; simp [chunksFrom]
  | cons s tl ih =>
    intro j
    cases tl with
    | nil => simp [chunksFrom]
    | cons e rest => simp [chunksFrom, ih (j + 1)]

theorem chunksFrom_map_endTime (fileId : String) :
    ∀ (bps : List ℚ) (j : Nat),
      (chunksFrom fileId j bps).map (fun c => c.endTime) = bps.tail := by
  intro bps
  induction bps with
  | nil => intro j; simp [chunksFrom]
  | cons s tl ih =>
    intro j
    cases tl with
    | nil => simp [chunksFrom]
    | cons e rest => simp [chunksFrom, ih (j + 1)]

theorem chunksFrom_duration_sub (fileId : String) :
    ∀ (bps : List ℚ) (j : Nat), ∀ c ∈ chunksFrom fileId j bps,
      c.duration = c.endTime - c.startTime := by
  intro bps
  induction bps with
  | nil => intro j c hc; simp [chunksFrom] at hc
  | cons s tl ih =>
    intro j c hc
    cases tl with
    | nil => simp [chunksFrom] at hc
    | cons e rest =>
      simp only [chunksFrom, List.mem_cons] at hc
      rcases hc with rfl | hc
      · rfl
      · exact ih (j + 1) c hc

theorem chunksFrom_length (fileId : String) (bps : List ℚ) (j : Nat) :
    (chunksFrom fileId j bps).length = bps.length - 1 := by
  have h := congrArg List.length (chunksFrom_map_endTime fileId bps j)
  simpa using h

theorem chunksFrom_getElem_endTime (fileId : String) (bps : List ℚ) (j i : Nat)
    (h : i + 1 < bps.length) (hc : i < (chunksFrom fileId j bps).length) :
    ((chunksFrom fileId j bps).get ⟨i, hc⟩).endTime = bps.get ⟨i + 1, h⟩ := by
  have hmap := chunksFrom_map_endTime fileId bps j
  have h2 : ((chunksFrom fileId j bps).map (fun c => c.endTime))[i]? =
      bps.tail[i]? := by
    rw [hmap]
  rw [List.getElem?_map, ← List.drop_one, List.getElem?_drop] at h2
  rw [List.getElem?_eq_getElem hc, List.getElem?_eq_getElem (by omega)] at h2
  simpa [Nat.add_comm] using h2

theorem chunksFrom_getElem_startTime (fileId : String) (bps : List ℚ) (j i : Nat)
    (h : i < bps.length) (hc : i < (chunksFrom fileId j bps).length) :
    ((chunksFrom fileId j bps).get ⟨i, hc⟩).startTime = bps.get ⟨i, h⟩ := by
  have hmap := chunksFrom_map_startTime fileId bps j
  have h2 : ((chunksFrom fileId j bps).map (fun c => c.startTime))[i]? =
      bps.dropLast[i]? := by
    rw [hmap]
  have hlen2 : (chunksFrom fileId j bps).length = bps.length - 1 :=
    chunksFrom_length fileId bps j
  have hdl : i < bps.dropLast.length := by
    rw [List.length_dropLast]
    omega
  rw [List.getElem?_map, List.getElem?_eq_getElem hc,
    List.getElem?_eq_getElem hdl] at h2
  simp only [List.get_eq_getElem]
  simp only [Option.map_some', Option.some.injEq] at h2
  rw [h2, List.getElem_dropLast]

theorem saveChunks_getElem_endTime (f : AudioFile) (i : Nat)
    (h : i + 1 < (saveBoundaries f).length)
    (hc : i < (saveChunks f).length) :
    ((saveChunks f).get ⟨i, hc⟩).endTime = (saveBoundaries f).get ⟨i + 1, h⟩ :=
  chunksFrom_getElem_endTime f.id (saveBoundaries f) 0 i h hc

theorem saveChunks_getElem_startTime (f : AudioFile) (i : Nat)
    (h : i < (saveBoundaries f).length)
    (hc : i < (saveChunks f).length) :
    ((saveChunks f).get ⟨i, hc⟩).startTime = (saveBoundaries f).get ⟨i, h⟩ :=
  chunksFrom_getElem_startTime f.id (saveBoundaries f) 0 i h hc

/-- C1: for every track with duration `d > 0` whose breakpoints all lie
strictly between `0` and `d`, the chunk list computed at save time
partitions `[0, d]`: the first chunk starts at `0`, the last chunk ends at
`d`, each chunk's `endTime` is the next chunk's `startTime`, and there are
`|breakpoints| + 1` chunks. -/
theorem c1_save_chunks_partition (f : AudioFile) (hd : 0 < f.duration)
    (hB : ∀ b ∈ f.breakpoints, 0 < b ∧ b < f.duration) :
    (saveChunks f).length = f.breakpoints.length + 1 ∧
    ((saveChunks f).map (fun c => c.startTime)).head? = some 0 ∧
    ((saveChunks f).map (fun c => c.endTime)).getLast? = some f.duration ∧
    ∀ i : Nat, ∀ h1 : i + 1 < (saveChunks f).length,
      ((saveChunks f).get ⟨i, by omega⟩).endTime =
        ((saveChunks f).get ⟨i + 1, h1⟩).startTime := by
  have hlen : (saveChunks f).length = f.breakpoints.length + 1 := by
    simp [saveChunks, chunksFrom_length, saveBoundaries]
  refine ⟨hlen, ?_, ?_, ?_⟩
  · rw [saveChunks, chunksFrom_map_startTime, saveBoundaries]
    cases hbp : f.breakpoints <;> simp [hbp]
  · rw [saveChunks, chunksFrom_map_endTime, saveBoundaries]
    simp
  · intro i h1
    have hb : (saveBoundaries f).length = f.breakpoints.length + 2 := by
      simp [saveBoundaries]
    rw [saveChunks_getElem_endTime f i (by omega) (by omega),
      saveChunks_getElem_startTime f (i + 1) (by omega) (by omega)]

/-- A concrete track: the spec's scenario `duration=120s, breakpoints=[30,90]`. -/
def c1File : AudioFile :=
  { id := "file-1"
    fileName := "song.mp3"
    storageKey := ""
    storageUrl := ""
    duration := 120
    breakpoints := [30, 90]
    uploading := false
    uploaded := false
    chunks := [] }

/-- Witness for C1 at the spec's scenario track (duration 120,
breakpoints `[30, 90]`). -/
theorem c1_save_chunks_partition_witness :
    (saveChunks c1File).length = c1File.breakpoints.length + 1 ∧
    ((saveChunks c1File).map (fun c => c.startTime)).head? = some 0 ∧
    ((saveChunks c1File).map (fun c => c.endTime)).getLast? = some c1File.duration ∧
    ∀ i : Nat, ∀ h1 : i + 1 < (saveChunks c1File).length,
      ((saveChunks c1File).get ⟨i, by omega⟩).endTime =
        ((saveChunks c1File).get ⟨i + 1, h1⟩).startTime :=
  c1_save_chunks_partition c1File (by norm_num [c1File]) (by decide)

theorem chunksFrom_map_pair (fileId : String) :
    ∀ (bps : List ℚ) (j : Nat),
      (chunksFrom fileId j bps).map (fun c => (c.startTime, c.endTime)) =
        bps.zip bps.tail := by
  intro bps
  induction bps with
  | nil => intro j; simp [chunksFrom]
  | cons s tl ih =>
    intro j
    cases tl with
    | nil => simp [chunksFrom]
    | cons e rest => simp [chunksFrom, ih (j + 1)]

/-- The track with duplicated breakpoint values refuting C2 as stated. -/
def c2File : AudioFile :=
  { id := "file-2"
    fileName := "dup.mp3"
    storageKey := ""
    storageUrl := ""
    duration := 10
    breakpoints := [5, 5]
    uploading := false
    uploaded := false
    chunks := [] }

/-- C2 counterexample: for duration `10` and breakpoint list `[5, 5]` the
boundary sequence built by `saveAudioFile` is `[0, 5, 5, 10]`, not the
claimed `sort(unique({0} ∪ {5, 5} ∪ {10})) = [0, 5, 10]` — the code never
sorts or deduplicates. -/
theorem c2_boundaries_counterexample :
    saveBoundaries c2File ≠ specBoundaries c2File.breakpoints c2File.duration := by
  decide

/-- C2 (amended): the boundary sequence used at save time is literally
`[0] ++ breakpoints ++ [duration]`, with no sorting and no deduplication;
it coincides with `sort(unique({0} ∪ breakpoints ∪ {duration}))` exactly
when the stored breakpoint list is already strictly sorted with every value
strictly between `0` and the duration (the invariant the UI maintains).
The emitted chunks are `{start: boundaries[i], end: boundaries[i+1],
duration: end - start}` for consecutive pairs of this sequence. -/
theorem c2_boundaries_amended (f : AudioFile) (hd : 0 < f.duration)
    (hsort : f.breakpoints.Sorted (· < ·))
    (hB : ∀ b ∈ f.breakpoints, 0 < b ∧ b < f.duration) :
    saveBoundaries f = 0 :: f.breakpoints ++ [f.duration] ∧
    saveBoundaries f = specBoundaries f.breakpoints f.duration ∧
    (saveChunks f).map (fun c => (c.startTime, c.endTime)) =
      (saveBoundaries f).zip (saveBoundaries f).tail ∧
    ∀ c ∈ saveChunks f, c.duration = c.endTime - c.startTime := by
  have hsorted : (0 :: f.breakpoints ++ [f.duration]).Sorted (· < ·) := by
    rw [List.cons_append, List.sorted_cons]
    constructor
    · intro b hb
      rw [List.mem_append] at hb
      rcases hb with hb | hb
      · exact (hB b hb).1
      · simp only [List.mem_singleton] at hb
        rw [hb]; exact hd
    · rw [List.Sorted, List.pairwise_append]
      refine ⟨hsort, by simp, ?_⟩
      intro a ha b hb
      simp only [List.mem_singleton] at hb
      rw [hb]; exact (hB a ha).2
  have hsorted' : (0 :: f.breakpoints ++ [f.duration]).Sorted (· ≤ ·) :=
    hsorted.imp fun h => le_of_lt h
  refine ⟨rfl, ?_, ?_, ?_⟩
  · rw [specBoundaries, List.dedup_eq_self.mpr hsorted.nodup,
      List.Sorted.insertionSort_eq hsorted']
    rfl
  · exact chunksFrom_map_pair f.id (saveBoundaries f) 0
  · exact chunksFrom_duration_sub f.id (saveBoundaries f) 0

/-- Witness for the amended C2 at the strictly sorted in-range breakpoint
list `[30, 90]` with duration `120`. -/
theorem c2_boundaries_amended_witness :
    saveBoundaries c1File = 0 :: c1File.breakpoints ++ [c1File.duration] ∧
    saveBoundaries c1File = specBoundaries c1File.breakpoints c1File.duration ∧
    (saveChunks c1File).map (fun c => (c.startTime, c.endTime)) =
      (saveBoundaries c1File).zip (saveBoundaries c1File).tail ∧
    ∀ c ∈ saveChunks c1File, c.duration = c.endTime - c.startTime :=
  c2_boundaries_amended c1File (by norm_num [c1File])
    (by simp [c1File, List.sorted_cons]; norm_num) (by decide)

/-- The breakpoint list `addEvenBreakpoints` installs on the target track:
`interval * i` for `i = 1..count` with `interval = duration / (count + 1)`. -/
def evenBreakpoints (duration : ℚ) (n : Int) : List ℚ :=
  (List.range n.toNat).map (fun i : Nat => duration / ((n : ℚ) + 1) * ((i : ℚ) + 1))

theorem addEvenBreakpoints_eq_map (files : List AudioFile) (fileId : String)
    (n : Int) (hn : 1 ≤ n) (tr : AudioFile)
    (hfind : files.find? (fun file => file.id == fileId) = some tr) :
    addEvenBreakpoints files fileId n =
      files.map (fun f => if f.id = fileId
        then { f with breakpoints := evenBreakpoints tr.duration n } else f) := by
  rw [addEvenBreakpoints, if_neg (by omega), hfind]
  simp only [List.map_map]
  apply List.map_congr_left
  intro f _
  by_cases h : f.id = fileId <;> simp [h, evenBreakpoints]

theorem find?_update_of_found (u : AudioFile → AudioFile)
    (hu : ∀ f, (u f).id = f.id) :
    ∀ (files : List AudioFile) (fileId : String) (tr : AudioFile),
      files.find? (fun file => file.id == fileId) = some tr →
      (files.map (fun f => if f.id = fileId then u f else f)).find?
          (fun file => file.id == fileId) = some (u tr) := by
  intro files
  induction files with
  | nil => intro fileId tr h; simp at h
  | cons a t ih =>
    intro fileId tr h
    by_cases ha : a.id = fileId
    · rw [List.find?_cons_of_pos _ (by simp [ha])] at h
      injection h with h'
      subst h'
      simp only [List.map_cons, if_pos ha]
      rw [List.find?_cons_of_pos _ (by simp [hu, ha])]
    · rw [List.find?_cons_of_neg _ (by simp [ha])] at h
      simp only [List.map_cons, if_neg ha]
      rw [List.find?_cons_of_neg _ (by simp [ha])]
      exact ih fileId tr h

theorem even_boundaries_eq (d : ℚ) (n : Int) (hn : 1 ≤ n) :
    (0 : ℚ) :: evenBreakpoints d n ++ [d] =
      (List.range (n.toNat + 2)).map (fun k : Nat => d / ((n : ℚ) + 1) * (k : ℚ)) := by
  have hne : ((n : ℚ) + 1) ≠ 0 := by
    have h1 : (1 : ℚ) ≤ (n : ℚ) := by exact_mod_cast hn
    linarith
  have hcast : ((n.toNat : ℕ) : ℚ) = (n : ℚ) := by
    have h2 : ((n.toNat : ℕ) : ℤ) = n := Int.toNat_of_nonneg (by omega)
    exact_mod_cast congrArg (fun z : ℤ => (z : ℚ)) h2
  rw [List.range_succ, List.map_append, List.range_succ_eq_map, List.map_cons,
    List.map_map, List.cons_append, evenBreakpoints]
  have hlast : d / ((n : ℚ) + 1) * ((n.toNat + 1 : ℕ) : ℚ) = d := by
    push_cast [hcast]
    field_simp
  have hmaps : (List.range n.toNat).map
        (fun i : Nat => d / ((n : ℚ) + 1) * ((i : ℚ) + 1)) =
      (List.range n.toNat).map
        ((fun k : Nat => d / ((n : ℚ) + 1) * (k : ℚ)) ∘ Nat.succ) := by
    apply List.map_congr_left
    intro i _
    simp only [Function.comp_apply]
    push_cast
    ring
  rw [hmaps]
  simp [hlast]
  rw [hcast, div_mul_cancel₀ _ hne]

/-- C3: for every `n ≥ 1` and every track list in which the target id is
found, `addEvenBreakpoints` replaces that track's entire breakpoint set
with exactly `n` breakpoints at `duration/(n+1) * k` for `k = 1..n`, and
the `n+1` chunks subsequently derived from this set at save time all have
duration `duration/(n+1)` (exactly, in rational arithmetic). -/
theorem c3_even_split (files : List AudioFile) (fileId : String) (n : Int)
    (hn : 1 ≤ n) (tr : AudioFile)
    (hfind : files.find? (fun file => file.id == fileId) = some tr) :
    ∃ g, (addEvenBreakpoints files fileId n).find?
        (fun file => file.id == fileId) = some g ∧
      g.breakpoints = evenBreakpoints tr.duration n ∧
      g.breakpoints.length = n.toNat ∧
      (saveChunks g).length = n.toNat + 1 ∧
      ∀ c ∈ saveChunks g, c.duration = tr.duration / ((n : ℚ) + 1) := by
  refine ⟨{ tr with breakpoints := evenBreakpoints tr.duration n }, ?_, rfl,
    ?_, ?_, ?_⟩
  · rw [addEvenBreakpoints_eq_map files fileId n hn tr hfind]
    exact find?_update_of_found
      (fun f => { f with breakpoints := evenBreakpoints tr.duration n })
      (fun f => rfl) files fileId tr hfind
  · simp [evenBreakpoints]
  · rw [saveChunks, chunksFrom_length]
    simp [saveBoundaries, evenBreakpoints]
  · set g : AudioFile := { tr with breakpoints := evenBreakpoints tr.duration n }
      with hgdef
    have hg : saveBoundaries g =
        (List.range (n.toNat + 2)).map
          (fun k : Nat => tr.duration / ((n : ℚ) + 1) * (k : ℚ)) :=
      even_boundaries_eq tr.duration n hn
    have hblen : (saveBoundaries g).length = n.toNat + 2 := by
      rw [hg]; simp
    have hclen : (saveChunks g).length = (saveBoundaries g).length - 1 :=
      chunksFrom_length g.id (saveBoundaries g) 0
    intro c hc
    rw [List.mem_iff_get] at hc
    obtain ⟨⟨i, hi⟩, rfl⟩ := hc
    have hmem : (saveChunks g).get ⟨i, hi⟩ ∈ saveChunks g := List.get_mem _ _ _
    rw [chunksFrom_duration_sub g.id (saveBoundaries g) 0 _ hmem]
    rw [saveChunks_getElem_endTime g i (by omega) hi,
      saveChunks_getElem_startTime g i (by omega) hi]
    have hval : ∀ (k : Nat) (hk : k < (saveBoundaries g).length),
        (saveBoundaries g).get ⟨k, hk⟩ =
          tr.duration / ((n : ℚ) + 1) * (k : ℚ) := by
      intro k hk
      simp only [List.get_eq_getElem]
      have hk2 : k < n.toNat + 2 := by omega
      rw [List.getElem_of_eq hg, List.getElem_map, List.getElem_range]
    rw [hval i (by omega), hval (i + 1) (by omega)]
    push_cast
    ring

/-- A concrete track for the even-split scenario (duration 100). -/
def c3File : AudioFile :=
  { id := "file-3"
    fileName := "even.mp3"
    storageKey := ""
    storageUrl := ""
    duration := 100
    breakpoints := [7]
    uploading := false
    uploaded := false
    chunks := [] }

/-- Witness for C3 at the spec's scenario: `evenSplit(3)` on duration 100
(breakpoints become `[25, 50, 75]`, all four chunks have duration 25). -/
theorem c3_even_split_witness :
    ∃ g, (addEvenBreakpoints [c3File] "file-3" 3).find?
        (fun file => file.id == "file-3") = some g ∧
      g.breakpoints = evenBreakpoints c3File.duration 3 ∧
      g.breakpoints.length = (3 : Int).toNat ∧
      (saveChunks g).length = (3 : Int).toNat + 1 ∧
      ∀ c ∈ saveChunks g, c.duration = c3File.duration / (((3 : Int) : ℚ) + 1) :=
  c3_even_split [c3File] "file-3" 3 (by norm_num) c3File (by decide)

/-- C4: if `handleSubmit` runs while some track has `uploading = true`, it
throws the explicit "wait for uploads" error before any network call: no
request reaches `/video/process-and-store`, no forced upload is issued, and
the state is untouched. -/
theorem c4_submit_blocked_while_uploading (files : List AudioFile)
    (uploads : String → UploadResult)
    (h : files.any (fun file => file.uploading) = true) :
    (handleSubmit files uploads).processRequest = none ∧
    (handleSubmit files uploads).uploadRequestIds = [] ∧
    (handleSubmit files uploads).error =
      some "Please wait for all files to finish uploading" ∧
    (handleSubmit files uploads).newFiles = files := by
  simp [handleSubmit, h]

/-- A track currently mid-upload. -/
def c4File : AudioFile :=
  { id := "file-4"
    fileName := "busy.mp3"
    storageKey := ""
    storageUrl := ""
    duration := 60
    breakpoints := []
    uploading := true
    uploaded := false
    chunks := [] }

/-- Witness for C4: a single mid-upload track blocks submission. -/
theorem c4_submit_blocked_while_uploading_witness :
    (handleSubmit [c4File] (fun _ => { success := true, key := "k", url := "u" })).processRequest = none ∧
    (handleSubmit [c4File] (fun _ => { success := true, key := "k", url := "u" })).uploadRequestIds = [] ∧
    (handleSubmit [c4File] (fun _ => { success := true, key := "k", url := "u" })).error =
      some "Please wait for all files to finish uploading" ∧
    (handleSubmit [c4File] (fun _ => { success := true, key := "k", url := "u" })).newFiles = [c4File] :=
  c4_submit_blocked_while_uploading [c4File] _ (by decide)

/-- A never-uploaded track submitted directly. -/
def c5File : AudioFile :=
  { id := "file-5"
    fileName := "late.mp3"
    storageKey := ""
    storageUrl := ""
    duration := 10
    breakpoints := [4]
    uploading := false
    uploaded := false
    chunks := [] }

/-- The upload endpoint's (successful) responses during the C5 run. -/
def c5Uploads : String → UploadResult :=
  fun _ => { success := true
             key := "audio/original-abc.mp3"
             url := "https://cdn.example/audio.mp3" }

/-- C5 (code bug): `handleSubmit` on a not-yet-uploaded track does issue the
forced upload, and the upload completes with a non-empty storage URL
(visible in the updated state), yet the payload sent to
`/video/process-and-store` carries `supabase_url = ""` — `handleSubmit`
builds it from the stale `audioFiles` closure captured before the uploads,
not from the updated state. -/
theorem c5_submit_stale_storage_url :
    (handleSubmit [c5File] c5Uploads).uploadRequestIds = ["file-5"] ∧
    ((handleSubmit [c5File] c5Uploads).newFiles.map
      (fun f => (f.uploaded, f.storageUrl))) =
        [(true, "https://cdn.example/audio.mp3")] ∧
    (handleSubmit [c5File] c5Uploads).processRequest =
      some { data := [{ supabase_url := "", breakpoints := [4] }]
             combine_videos := false
             output_dir := "output_videos" } := by
  refine ⟨rfl, rfl, rfl⟩

theorem perm_get_cons_eraseIdx {α : Type*} :
    ∀ (l : List α) (i : Nat) (h : i < l.length),
      List.Perm l (l.get ⟨i, h⟩ :: l.eraseIdx i) := by
  intro l
  induction l with
  | nil => intro i h; simp at h
  | cons a t ih =>
    intro i h
    cases i with
    | zero => simp [List.eraseIdx]
    | succ i =>
      have h' : i < t.length := by simpa using h
      simp only [List.get_eq_getElem, List.getElem_cons_succ,
        List.eraseIdx_cons_succ]
      have step1 : List.Perm (a :: t) (a :: (t.get ⟨i, h'⟩ :: t.eraseIdx i)) :=
        List.Perm.cons a (ih i h')
      have step2 : List.Perm (a :: (t.get ⟨i, h'⟩ :: t.eraseIdx i))
          (t.get ⟨i, h'⟩ :: a :: t.eraseIdx i) := List.Perm.swap _ _ _
      simpa using step1.trans step2

theorem insertIdx_perm_cons {α : Type*} (a : α) :
    ∀ (l : List α) (n : Nat), n ≤ l.length →
      List.Perm (l.insertIdx n a) (a :: l) := by
  intro l
  induction l with
  | nil =>
    intro n hn
    have : n = 0 := by simpa using hn
    subst this
    simp
  | cons b t ih =>
    intro n hn
    cases n with
    | zero => simp
    | succ n =>
      rw [List.insertIdx_succ_cons]
      have h' : n ≤ t.length := by simpa using hn
      have step1 : List.Perm (b :: t.insertIdx n a) (b :: a :: t) :=
        List.Perm.cons b (ih n h')
      exact step1.trans (List.Perm.swap _ _ _)

/-- C6: the drag-reorder step, for any valid pair of indices, permutes the
track records (so the multiset of ids and of every per-track field value is
preserved), puts the dragged record at the target index, and keeps all
other tracks in their original relative order (removing the moved record
from the result gives exactly the original list minus the dragged record). -/
theorem c6_drag_reorder (files : List AudioFile) (di idx : Nat)
    (h1 : di < files.length) (h2 : idx < files.length) :
    List.Perm (handleDragOver files di idx) files ∧
    (handleDragOver files di idx).eraseIdx idx = files.eraseIdx di ∧
    (handleDragOver files di idx)[idx]? = files[di]? := by
  by_cases hde : di = idx
  · subst hde
    simp [handleDragOver]
  · have hget : files[di]? = some (files.get ⟨di, h1⟩) := by
      simp [List.getElem?_eq_getElem h1]
    have hlen : (files.eraseIdx di).length = files.length - 1 := by
      rw [List.length_eraseIdx]
      simp [h1]
    have hidx : idx ≤ (files.eraseIdx di).length := by omega
    rw [handleDragOver, if_neg hde, hget]
    refine ⟨?_, ?_, ?_⟩
    · exact (insertIdx_perm_cons _ _ idx hidx).trans
        (perm_get_cons_eraseIdx files di h1).symm
    · rw [List.eraseIdx_insertIdx]
    · have hins : idx < ((files.eraseIdx di).insertIdx idx
          (files.get ⟨di, h1⟩)).length := by
        rw [List.length_insertIdx _ _ hidx]
        omega
      rw [List.getElem?_eq_getElem hins]
      rw [List.getElem_insertIdx_self _ _ _ hidx]

/-- Three concrete distinct tracks used to witness reordering. -/
def c6Files : List AudioFile :=
  [{ id := "a"
     fileName := "a.mp3"
     storageKey := ""
     storageUrl := ""
     duration := 1
     breakpoints := []
     uploading := false
     uploaded := false
     chunks := [] },
   { id := "b"
     fileName := "b.mp3"
     storageKey := ""
     storageUrl := ""
     duration := 2
     breakpoints := []
     uploading := false
     uploaded := false
     chunks := [] },
   { id := "c"
     fileName := "c.mp3"
     storageKey := ""
     storageUrl := ""
     duration := 3
     breakpoints := []
     uploading := false
     uploaded := false
     chunks := [] }]

/-- Witness for C6: moving index 0 to index 2 in a three-track list. -/
theorem c6_drag_reorder_witness :
    List.Perm (handleDragOver c6Files 0 2) c6Files ∧
    (handleDragOver c6Files 0 2).eraseIdx 2 = c6Files.eraseIdx 0 ∧
    (handleDragOver c6Files 0 2)[2]? = c6Files[0]? :=
  c6_drag_reorder c6Files 0 2 (by decide) (by decide)

/-- C7: when the upload behind `saveAudioFile` fails, the track goes back to
`uploading = false` while `uploaded` keeps its prior value (so a
not-yet-uploaded track stays `false` and retryable — no terminal failure
state), an error toast is surfaced, and every other field of every track
(breakpoints, chunks, storageKey, storageUrl, name, id, duration) is left
untouched; tracks with a different id keep even their `uploading` flag. -/
theorem c7_save_failure (files : List AudioFile) (fileId : String)
    (r : UploadResult) (hr : r.success = false)
    (hfound : (files.find? (fun file => file.id == fileId)).isSome = true) :
    saveErrorToast files fileId r = true ∧
    (saveAudioFile files fileId r).length = files.length ∧
    ∀ i : Nat, ∀ h : i < files.length,
      ∀ hi2 : i < (saveAudioFile files fileId r).length,
      ((saveAudioFile files fileId r).get ⟨i, hi2⟩).id =
          (files.get ⟨i, h⟩).id ∧
      ((saveAudioFile files fileId r).get ⟨i, hi2⟩).fileName =
          (files.get ⟨i, h⟩).fileName ∧
      ((saveAudioFile files fileId r).get ⟨i, hi2⟩).storageKey =
          (files.get ⟨i, h⟩).storageKey ∧
      ((saveAudioFile files fileId r).get ⟨i, hi2⟩).storageUrl =
          (files.get ⟨i, h⟩).storageUrl ∧
      ((saveAudioFile files fileId r).get ⟨i, hi2⟩).duration =
          (files.get ⟨i, h⟩).duration ∧
      ((saveAudioFile files fileId r).get ⟨i, hi2⟩).breakpoints =
          (files.get ⟨i, h⟩).breakpoints ∧
      ((saveAudioFile files fileId r).get ⟨i, hi2⟩).uploaded =
          (files.get ⟨i, h⟩).uploaded ∧
      ((saveAudioFile files fileId r).get ⟨i, hi2⟩).chunks =
          (files.get ⟨i, h⟩).chunks ∧
      ((files.get ⟨i, h⟩).id = fileId →
        ((saveAudioFile files fileId r).get ⟨i, hi2⟩).uploading = false) ∧
      ((files.get ⟨i, h⟩).id ≠ fileId →
        ((saveAudioFile files fileId r).get ⟨i, hi2⟩).uploading =
          (files.get ⟨i, h⟩).uploading) := by
  obtain ⟨tr, htr⟩ := Option.isSome_iff_exists.mp hfound
  have hsave : saveAudioFile files fileId r =
      files.map (fun f =>
        if f.id = fileId then { f with uploading := false } else f) := by
    rw [saveAudioFile, saveAudioFileUpdate, htr]
    simp only [hr, Bool.false_eq_true, if_false, List.map_map]
    apply List.map_congr_left
    intro f _
    by_cases h : f.id = fileId <;> simp [h]
  refine ⟨by simp [saveErrorToast, htr, hr], by simp [hsave], ?_⟩
  intro i h hi2
  simp only [hsave, List.get_eq_getElem, List.getElem_map]
  by_cases hf : files[i].id = fileId <;> simp [hf]

/-- A track about to fail its upload (witness input for C7). -/
def c7File : AudioFile :=
  { id := "file-7"
    fileName := "fail.mp3"
    storageKey := "old-key"
    storageUrl := "old-url"
    duration := 30
    breakpoints := [10]
    uploading := false
    uploaded := false
    chunks := [] }

/-- The failed upload response (witness input for C7). -/
def c7Fail : UploadResult :=
  { success := false
    key := ""
    url := "" }

/-- Witness for C7: one track, failing upload. -/
theorem c7_save_failure_witness :
    saveErrorToast [c7File] "file-7" c7Fail = true ∧
    (saveAudioFile [c7File] "file-7" c7Fail).length = [c7File].length ∧
    ∀ i : Nat, ∀ h : i < [c7File].length,
      ∀ hi2 : i < (saveAudioFile [c7File] "file-7" c7Fail).length,
      ((saveAudioFile [c7File] "file-7" c7Fail).get ⟨i, hi2⟩).id =
          ([c7File].get ⟨i, h⟩).id ∧
      ((saveAudioFile [c7File] "file-7" c7Fail).get ⟨i, hi2⟩).fileName =
          ([c7File].get ⟨i, h⟩).fileName ∧
      ((saveAudioFile [c7File] "file-7" c7Fail).get ⟨i, hi2⟩).storageKey =
          ([c7File].get ⟨i, h⟩).storageKey ∧
      ((saveAudioFile [c7File] "file-7" c7Fail).get ⟨i, hi2⟩).storageUrl =
          ([c7File].get ⟨i, h⟩).storageUrl ∧
      ((saveAudioFile [c7File] "file-7" c7Fail).get ⟨i, hi2⟩).duration =
          ([c7File].get ⟨i, h⟩).duration ∧
      ((saveAudioFile [c7File] "file-7" c7Fail).get ⟨i, hi2⟩).breakpoints =
          ([c7File].get ⟨i, h⟩).breakpoints ∧
      ((saveAudioFile [c7File] "file-7" c7Fail).get ⟨i, hi2⟩).uploaded =
          ([c7File].get ⟨i, h⟩).uploaded ∧
      ((saveAudioFile [c7File] "file-7" c7Fail).get ⟨i, hi2⟩).chunks =
          ([c7File].get ⟨i, h⟩).chunks ∧
      (([c7File].get ⟨i, h⟩).id = "file-7" →
        ((saveAudioFile [c7File] "file-7" c7Fail).get ⟨i, hi2⟩).uploading = false) ∧
      (([c7File].get ⟨i, h⟩).id ≠ "file-7" →
        ((saveAudioFile [c7File] "file-7" c7Fail).get ⟨i, hi2⟩).uploading =
          ([c7File].get ⟨i, h⟩).uploading) :=
  c7_save_failure [c7File] "file-7" c7Fail (by decide) (by decide)

/-- C8: on every track whose id matches, adding a breakpoint that is already
exactly present leaves the whole track list unchanged, and removing a
breakpoint that is absent leaves the whole track list unchanged. -/
theorem c8_breakpoint_noops (files : List AudioFile) (fileId : String)
    (t : ℚ) :
    ((∀ f ∈ files, f.id = fileId → t ∈ f.breakpoints) →
      addBreakpoint files fileId t = files) ∧
    ((∀ f ∈ files, f.id = fileId → t ∉ f.breakpoints) →
      removeBreakpoint files fileId t = files) := by
  constructor
  · intro h
    rw [addBreakpoint]
    conv_rhs => rw [← List.map_id files]
    apply List.map_congr_left
    intro f hf
    by_cases hid : f.id = fileId
    · simp [hid, h f hf hid]
    · simp [hid]
  · intro h
    rw [removeBreakpoint]
    conv_rhs => rw [← List.map_id files]
    apply List.map_congr_left
    intro f hf
    by_cases hid : f.id = fileId
    · have habs := h f hf hid
      have hfilter : f.breakpoints.filter (fun bp => bp ≠ t) = f.breakpoints :=
        List.filter_eq_self.mpr (fun a ha => by
          have hne : a ≠ t := fun heq => habs (heq ▸ ha)
          simp [hne])
      rw [if_pos hid, hfilter]
      rfl
    · rw [if_neg hid]
      rfl

/-- A track with one breakpoint at 3 (witness input for C8). -/
def c8File : AudioFile :=
  { id := "file-8"
    fileName := "noop.mp3"
    storageKey := ""
    storageUrl := ""
    duration := 9
    breakpoints := [3]
    uploading := false
    uploaded := false
    chunks := [] }

/-- Witness for C8: adding the already-present 3 and removing the absent 5
both leave the list unchanged. -/
theorem c8_breakpoint_noops_witness :
    addBreakpoint [c8File] "file-8" 3 = [c8File] ∧
    removeBreakpoint [c8File] "file-8" 5 = [c8File] :=
  ⟨(c8_breakpoint_noops [c8File] "file-8" 3).1 (by decide),
   (c8_breakpoint_noops [c8File] "file-8" 5).2 (by decide)⟩

/-- C9: when the main audio upload succeeds but the breakpoints-metadata
side upload fails (invalid JSON or a storage error), `POST /api/upload`
still answers `{success: true, key, url}` with status 200 — the metadata
failure is only logged, never turned into a failing response. -/
theorem c9_metadata_failure_swallowed (env : UploadEnv) (hash : String)
    (hurl : env.hasSupabaseUrl = true) (hkey : env.hasSupabaseAnonKey = true)
    (file : FormFile) (hfile : env.file = some file)
    (hlist : env.listBucketsOk = true)
    (hbucket : env.bucketExists = true ∨ env.createBucketOk = true)
    (hupload : env.fileUploadError = none)
    (url : String) (hpub : env.publicUrl = some url)
    (json : String) (hjson : env.breakpointsJson = some json)
    (hmeta : env.metadataJsonValid = false ∨ env.metadataUploadOk = false) :
    (uploadPOST env hash).1 =
      { status := 200, success := true, error := none,
        key := some (uploadKey hash file.name), url := some url } ∧
    (uploadPOST env hash).2 ≠ MetadataOutcome.uploaded ∧
    (uploadPOST env hash).2 ≠ MetadataOutcome.notAttempted := by
  have hbucket2 : (!env.bucketExists && !env.createBucketOk) = false := by
    rcases hbucket with h | h <;> simp [h]
  rw [uploadPOST]
  rw [hurl, hkey, hfile, hlist, hbucket2, hupload, hpub, hjson]
  rcases hmeta with h | h
  · simp [h]
  · by_cases hv : env.metadataJsonValid <;> simp [hv, h]

/-- A request environment where only the metadata upload fails. -/
def c9Env : UploadEnv :=
  { hasSupabaseUrl := true
    hasSupabaseAnonKey := true
    file := some { name := "song.mp3" }
    breakpointsJson := some "\x7b\x7d"
    listBucketsOk := true
    bucketExists := true
    createBucketOk := true
    fileUploadError := none
    publicUrl := some "https://pub.example/song.mp3"
    metadataJsonValid := true
    metadataUploadOk := false }

/-- Witness for C9: metadata storage error, main upload succeeded. -/
theorem c9_metadata_failure_swallowed_witness :
    (uploadPOST c9Env "h1").1 =
      { status := 200, success := true, error := none,
        key := some (uploadKey "h1" ({ name := "song.mp3" : FormFile }).name),
        url := some "https://pub.example/song.mp3" } ∧
    (uploadPOST c9Env "h1").2 ≠ MetadataOutcome.uploaded ∧
    (uploadPOST c9Env "h1").2 ≠ MetadataOutcome.notAttempted :=
  c9_metadata_failure_swallowed c9Env "h1" rfl rfl _ rfl rfl (Or.inl rfl) rfl
    _ rfl _ rfl (Or.inr rfl)

/-- C10: for every `n ≤ 0`, `addEvenBreakpoints` is a no-op — it returns
immediately and the entire track list, including the target track's
existing breakpoints, is unchanged. -/
theorem c10_even_split_nonpositive (files : List AudioFile) (fileId : String)
    (n : Int) (hn : n ≤ 0) :
    addEvenBreakpoints files fileId n = files := by
  rw [addEvenBreakpoints, if_pos hn]

/-- Witness for C10: `count = 0` on a track that has breakpoints. -/
theorem c10_even_split_nonpositive_witness :
    addEvenBreakpoints [c3File] "file-3" 0 = [c3File] :=
  c10_even_split_nonpositive [c3File] "file-3" 0 (by decide)

end VideoEditor

